import Mathlib

/-!
Verification of the lick sequencing and audio rendering engine of the
harmonica ear-training tool (`audio_player.py`, `app.py`).

Audio is modelled at millisecond granularity: an `AudioClip` is a list of
integer samples, one per millisecond, matching the millisecond-based
slicing and concatenation the code performs on its audio buffers.
Python float arithmetic on tempos and beat durations is modelled with
exact rationals; Python `int()` is truncation toward zero, and Python
slicing `clip[:d]` wraps a negative bound around the end of the clip.
Operations that raise an unhandled Python exception are modelled as
`Option` results returning `none`.
-/

set_option maxRecDepth 8000

/-- An audio buffer: one integer sample per millisecond of audio. -/
abbrev AudioClip := List ℤ

/-- Python `int()` applied to a rational: truncation toward zero. -/
def pyInt (q : ℚ) : ℤ := if q < 0 then ⌈q⌉ else ⌊q⌋

/-- `AudioSegment.silent(duration=d)`: `d` milliseconds of zero samples;
a negative duration yields an empty segment. -/
def pySilent (d : ℤ) : AudioClip := List.replicate d.toNat 0

/-- `clip[:d]`: millisecond slicing of an audio segment.  A negative
bound counts from the end of the clip, as in Python. -/
def pySliceTo (c : AudioClip) (d : ℤ) : AudioClip :=
  if d < 0 then c.take ((c.length : ℤ) + d).toNat else c.take d.toNat

/-- One entry of `lick_data`: a tab label (or the sentinel `"rest"`)
and a duration in quarter-note beats. -/
structure NoteEvent where
  tab : String
  duration : ℚ
deriving DecidableEq, Repr

/-- The sample mapping `self.harmonica_samples`, as a lookup function. -/
abbrev SampleMap := String → Option AudioClip

/-- `quarter_note_duration_ms = 60000 / bpm` (line 81 / line 123). -/
def quarterNoteMs (bpm : ℚ) : ℚ := 60000 / bpm

/-- `note_duration_ms = int(quarter_note_duration_ms * duration_in_beats)`
(line 87). -/
def noteDurationMs (bpm : ℚ) (beats : ℚ) : ℤ := pyInt (quarterNoteMs bpm * beats)

/-- The body of the rendering loop of `AudioPlayer.play_lick`
(lines 84-99): the audio segment appended for one note event. -/
def renderSegment (samples : SampleMap) (bpm : ℚ) (e : NoteEvent) : AudioClip :=
  let d := noteDurationMs bpm e.duration
  if e.tab = "rest" then pySilent d
  else
    match samples e.tab with
    | none => pySilent d
    | some clip => pySliceTo clip d

/-- The rendering part of `AudioPlayer.play_lick` (lines 81-99):
`final_sequence` after the loop.  `60000 / bpm` raises
`ZeroDivisionError` when `bpm = 0`, modelled as `none`. -/
def play_lick_render (samples : SampleMap) (lick_data : List NoteEvent)
    (bpm : ℚ) : Option AudioClip :=
  if bpm = 0 then none
  else some ((lick_data.map (renderSegment samples bpm)).flatten)

/-- The per-event requested duration, as a natural number of
milliseconds (the code's `note_duration_ms`, clamped at zero). -/
def segRequestNat (bpm : ℚ) (e : NoteEvent) : ℕ :=
  (noteDurationMs bpm e.duration).toNat

/-- Replaces a lick label by the sentinel `"rest"` wherever it occurs. -/
def substLabel (L : String) (e : NoteEvent) : NoteEvent :=
  if e.tab = L then { tab := "rest", duration := e.duration } else e

/-- An event whose segment fills its whole requested slot: a rest, a
missing sample (silence), or a clip at least `note_duration_ms` long. -/
def slotFilled (samples : SampleMap) (bpm : ℚ) (e : NoteEvent) : Prop :=
  e.tab = "rest" ∨ samples e.tab = none ∨
    ∃ clip, samples e.tab = some clip ∧
      noteDurationMs bpm e.duration ≤ (clip.length : ℤ)

/-- Whitespace stripped by Python `int()` around a numeric literal. -/
def isPySpace (c : Char) : Bool := c = ' ' || c = '\t' || c = '\n' || c = '\r'

/-- Leading- and trailing-whitespace stripping of Python `int(str)`. -/
def pyStrip (cs : List Char) : List Char :=
  ((cs.dropWhile isPySpace).reverse.dropWhile isPySpace).reverse

/-- Python `str.split('/')`: splits on every `'/'`, keeping empty parts. -/
def splitOnSlash : List Char → List (List Char)
  | [] => [[]]
  | '/' :: rest => [] :: splitOnSlash rest
  | c :: rest =>
      match splitOnSlash rest with
      | t :: ts => (c :: t) :: ts
      | [] => [[c]]

/-- Digit run of Python `int()`: accumulates decimal digits, failing on
any non-digit character. -/
def parseDigitsAux : List Char → ℕ → Option ℕ
  | [], acc => some acc
  | c :: cs, acc =>
      if c.isDigit then parseDigitsAux cs (acc * 10 + (c.toNat - 48)) else none

/-- Python `int(s)` on a string: optional surrounding whitespace, an
optional sign, then a nonempty run of decimal digits; `none` models the
`ValueError` raised otherwise. -/
def pyParseInt (cs : List Char) : Option ℤ :=
  match pyStrip cs with
  | [] => none
  | '-' :: rest =>
      if rest.isEmpty then none
      else (parseDigitsAux rest 0).map (fun n => -(n : ℤ))
  | '+' :: rest =>
      if rest.isEmpty then none
      else (parseDigitsAux rest 0).map (fun n => (n : ℤ))
  | cs => (parseDigitsAux cs 0).map (fun n => (n : ℤ))

/-- Lines 117-118: `beats_per_measure, _ = map(int, time_signature_str.split('/'))`.
Succeeds exactly when the string splits on `'/'` into two `int()`-parseable
parts; any `ValueError`/`IndexError` is `none`. -/
def parse_time_signature (s : String) : Option (ℤ × ℤ) :=
  match (splitOnSlash s.data).map pyParseInt with
  | [some a, some b] => some (a, b)
  | _ => none

/-- The `beats_per_measure` value reaching line 147 together with a flag
recording whether the fallback warning of line 120 was printed. -/
def beats_per_measure (s : String) : ℤ × Bool :=
  match parse_time_signature s with
  | some (a, _) => (a, false)
  | none => (4, true)

/-- One beat of the `response_part` loop (lines 146-154): the accent
click `metronome_click_1` when `i % beats_per_measure == 0`, otherwise
the normal click `metronome_click_2`, sliced to
`int(quarter_note_duration_ms)` milliseconds.  Python `%` is floor-mod. -/
def clickForBeat (click1 click2 : AudioClip) (bpm : ℚ) (m : ℤ) (i : ℕ) : AudioClip :=
  if Int.fmod i m = 0 then pySliceTo click1 (pyInt (quarterNoteMs bpm))
  else pySliceTo click2 (pyInt (quarterNoteMs bpm))

/-- The `response_part` buffer built at lines 143-154 for `n` beats.
`i % beats_per_measure` raises an unhandled `ZeroDivisionError` when
`beats_per_measure` is `0` and the loop body runs at least once,
modelled as `none`. -/
def response_part (click1 click2 : AudioClip) (n : ℕ) (bpm : ℚ) (m : ℤ) :
    Option AudioClip :=
  if m = 0 ∧ 1 ≤ n then none
  else some ((List.range n).map (clickForBeat click1 click2 bpm m)).flatten

/-- `num_beats_total = int(total_duration_beats)` (lines 124 and 144). -/
def num_beats_total (lick_data : List NoteEvent) : ℤ :=
  pyInt ((lick_data.map (·.duration)).sum)

/-- The response part as built inside `play_call_and_response` from the
raw time-signature string and the lick (lines 117-121, 123-124, 143-154). -/
def response_part_of (click1 click2 : AudioClip) (lick_data : List NoteEvent)
    (bpm : ℚ) (sig : String) : Option AudioClip :=
  response_part click1 click2 (num_beats_total lick_data).toNat bpm
    (beats_per_measure sig).1

/-- The playback loop of `play_call_and_response` (lines 157-162),
embedded over an oracle `stop` giving the value the worker observes at
its k-th read of `self.stop_call_and_response`: iteration `i` reads the
flag at check `2*i` (the `while` condition) and at check `2*i+1` (the
`if` after the call), playing the call and the response segments in
between.  `fuel` bounds how many iterations are unrolled; the result is
the sequence of buffers handed to `play`, in order. -/
def call_and_response_loop (stop : ℕ → Bool) (call resp : AudioClip) :
    ℕ → ℕ → List AudioClip
  | _, 0 => []
  | i, fuel + 1 =>
    if stop (2 * i) then []
    else call :: (if stop (2 * i + 1) then []
      else resp :: call_and_response_loop stop call resp (i + 1) fuel)

/-- `filename.replace('.wav', '')` (line 62): removes every occurrence
of `".wav"`, scanning left to right. -/
def stripWav : List Char → List Char
  | '.' :: 'w' :: 'a' :: 'v' :: rest => stripWav rest
  | c :: rest => c :: stripWav rest
  | [] => []

/-- The `tab_name` computed for a sample file name (line 62). -/
def tabNameOf (filename : String) : String := ⟨stripWav filename.data⟩

/-- A directory listing oracle: `none` when the path does not exist,
otherwise the directory's files as (name, decoded clip) pairs in
listing order. -/
abbrev FileSystem := String → Option (List (String × AudioClip))

/-- `AudioPlayer.load_harp_samples` (lines 47-67): clears the mapping,
returns `False` with the mapping left empty when the key directory does
not exist, and otherwise loads every `.wav` file into the mapping
(later duplicate tab names overwrite earlier ones, as for a `dict`).
Result: the new `harmonica_samples` mapping and the returned boolean. -/
def load_harp_samples (fs : FileSystem) (samples_base_path : String)
    (key : String) : SampleMap × Bool :=
  let harp_folder := key.toUpper ++ "_harp"
  let key_path := samples_base_path ++ "/" ++ harp_folder
  match fs key_path with
  | none => (fun _ => none, false)
  | some files =>
      (files.foldl
        (fun m kv =>
          if kv.1.endsWith ".wav" then
            fun l => if l = tabNameOf kv.1 then some kv.2 else m l
          else m)
        (fun _ => none), true)

/-- The call-and-response state owned by `EarTrainerApp`: whether the UI
believes a session is active (`call_and_response_active`), the number of
live worker threads, the player's stop flag, and whether a practice lick
is currently loaded. -/
structure AppState where
  active : Bool
  workers : ℕ
  stopFlag : Bool
  hasLick : Bool
deriving DecidableEq, Repr

/-- `EarTrainerApp.toggle_call_and_response` (app.py lines 332-354):
when active, set the stop flag, join the worker (leaving none alive) and
mark inactive; when idle with a lick loaded, mark active and spawn one
worker; when idle with no lick, do nothing.  No branch reports a no-op
error. -/
def toggle_call_and_response (s : AppState) : AppState :=
  if s.active then
    { s with stopFlag := true, workers := 0, active := false }
  else if s.hasLick then
    { s with active := true, workers := s.workers + 1 }
  else s

/-! ## Helper lemmas -/

lemma quarterNoteMs_pos {bpm : ℚ} (hb : 0 < bpm) : 0 < quarterNoteMs bpm := by
  unfold quarterNoteMs
  positivity

lemma pyInt_eq_floor {q : ℚ} (h : 0 ≤ q) : pyInt q = ⌊q⌋ := by
  unfold pyInt
  rw [if_neg (not_lt.mpr h)]

lemma pyInt_nonneg {q : ℚ} (h : 0 ≤ q) : 0 ≤ pyInt q := by
  rw [pyInt_eq_floor h]
  exact Int.floor_nonneg.mpr h

lemma noteDurationMs_nonneg {bpm beats : ℚ} (hb : 0 < bpm) (hd : 0 ≤ beats) :
    0 ≤ noteDurationMs bpm beats :=
  pyInt_nonneg (mul_nonneg (le_of_lt (quarterNoteMs_pos hb)) hd)

lemma pySliceTo_of_nonneg {c : AudioClip} {d : ℤ} (h : 0 ≤ d) :
    pySliceTo c d = c.take d.toNat := by
  unfold pySliceTo
  rw [if_neg (not_lt.mpr h)]

lemma renderSegment_length_le (samples : SampleMap) {bpm : ℚ} (e : NoteEvent)
    (hb : 0 < bpm) (hd : 0 ≤ e.duration) :
    (renderSegment samples bpm e).length ≤ segRequestNat bpm e := by
  have hnn := @noteDurationMs_nonneg bpm e.duration hb hd
  unfold renderSegment segRequestNat
  by_cases hr : e.tab = "rest"
  · simp [hr, pySilent]
  · cases hs : samples e.tab with
    | none => simp [hr, hs, pySilent]
    | some clip =>
        simp [hr, hs, pySliceTo_of_nonneg hnn, List.length_take]

lemma renderSegment_length_eq (samples : SampleMap) {bpm : ℚ} (e : NoteEvent)
    (hb : 0 < bpm) (hd : 0 ≤ e.duration) (hf : slotFilled samples bpm e) :
    (renderSegment samples bpm e).length = segRequestNat bpm e := by
  have hnn := @noteDurationMs_nonneg bpm e.duration hb hd
  unfold renderSegment segRequestNat
  by_cases hr : e.tab = "rest"
  · simp [hr, pySilent]
  · rcases hf with hf | hf | ⟨clip, hs, hle⟩
    · exact absurd hf hr
    · simp [hr, hf, pySilent]
    · have : (noteDurationMs bpm e.duration).toNat ≤ clip.length := by omega
      simp [hr, hs, pySliceTo_of_nonneg hnn, List.length_take, this]

lemma render_flatten_length_le (samples : SampleMap) {bpm : ℚ} (hb : 0 < bpm) :
    ∀ events : List NoteEvent, (∀ e ∈ events, 0 ≤ e.duration) →
      ((events.map (renderSegment samples bpm)).flatten).length ≤
        (events.map (segRequestNat bpm)).sum := by
  intro events
  induction events with
  | nil => intro _; simp
  | cons e es ih =>
      intro h
      simp only [List.map_cons, List.flatten_cons, List.length_append,
        List.sum_cons]
      have h1 := renderSegment_length_le samples e hb (h e (by simp))
      have h2 := ih (fun x hx => h x (by simp [hx]))
      omega

lemma render_flatten_length_eq (samples : SampleMap) {bpm : ℚ} (hb : 0 < bpm) :
    ∀ events : List NoteEvent, (∀ e ∈ events, 0 ≤ e.duration) →
      (∀ e ∈ events, slotFilled samples bpm e) →
      ((events.map (renderSegment samples bpm)).flatten).length =
        (events.map (segRequestNat bpm)).sum := by
  intro events
  induction events with
  | nil => intro _ _; simp
  | cons e es ih =>
      intro h hf
      simp only [List.map_cons, List.flatten_cons, List.length_append,
        List.sum_cons]
      have h1 := renderSegment_length_eq samples e hb (h e (by simp))
        (hf e (by simp))
      have h2 := ih (fun x hx => h x (by simp [hx]))
        (fun x hx => hf x (by simp [hx]))
      omega

/-! ## Claim theorems -/

/-- C4 (counterexample): the claim says rendering fails for every
`bpm ≤ 0`, but at `bpm = -120` `play_lick` raises nothing: the negative
computed duration just produces an empty buffer. -/
theorem play_lick_negative_bpm_no_failure :
    play_lick_render (fun _ => none) [⟨"rest", 1⟩] (-120) = some [] := by
  have h : noteDurationMs (-120) 1 = -500 := by
    simp only [noteDurationMs, pyInt, quarterNoteMs]
    norm_num
    have : ((-500 : ℚ)) = ((-500 : ℤ) : ℚ) := by norm_num
    rw [this, Int.ceil_intCast]
  simp [play_lick_render, renderSegment, pySilent, h]

/-- C4 (amended): rendering fails — with an unhandled
`ZeroDivisionError` from `60000 / bpm`, there is no `InvalidTempoError`
in the code — exactly when `bpm = 0`; every nonzero tempo, including
negative ones and values outside the 60-240 UI band, renders without
failing. -/
theorem play_lick_fails_iff_bpm_zero (samples : SampleMap)
    (events : List NoteEvent) (bpm : ℚ) :
    play_lick_render samples events bpm = none ↔ bpm = 0 := by
  unfold play_lick_render
  split <;> simp_all

/-- C1 (counterexample): at `bpm = 90` one quarter-note event requests
`int(60000/90 * 1) = 666` ms of audio — the buffer is 666 ms of silence
— while the claimed formula `round(60000/90 * 1)` gives `667`. -/
theorem play_lick_round_formula_counterexample :
    play_lick_render (fun _ => none) [⟨"rest", 1⟩] 90 =
      some (List.replicate 666 0) ∧
    round (quarterNoteMs 90 * (1 : ℚ)) = 667 := by
  constructor
  · have h : noteDurationMs 90 1 = 666 := by
      simp only [noteDurationMs, pyInt, quarterNoteMs]
      norm_num
    simp [play_lick_render, renderSegment, pySilent, h]
  · simp only [quarterNoteMs]
    norm_num [round_eq]

/-- C1 (amended): for every event list and `bpm > 0` with nonnegative
durations, each event's segment is requested as
`duration_ms = int(quarter_note_ms * duration_beats)` — Python `int()`
truncation, not `round` — the render succeeds, its total duration never
exceeds the sum of those truncated durations, and equals that sum
whenever every clip fills its slot (rests and missing samples always
do; clips may individually be shorter). -/
theorem play_lick_total_requested_duration (samples : SampleMap)
    (events : List NoteEvent) (bpm : ℚ) (hb : 0 < bpm)
    (hd : ∀ e ∈ events, 0 ≤ e.duration) :
    ∃ buf, play_lick_render samples events bpm = some buf ∧
      buf.length ≤ (events.map (segRequestNat bpm)).sum ∧
      ((∀ e ∈ events, slotFilled samples bpm e) →
        buf.length = (events.map (segRequestNat bpm)).sum) := by
  refine ⟨(events.map (renderSegment samples bpm)).flatten, ?_, ?_, ?_⟩
  · unfold play_lick_render
    rw [if_neg (ne_of_gt hb)]
  · exact render_flatten_length_le samples hb events hd
  · intro hf
    exact render_flatten_length_eq samples hb events hd hf

/-- C1 (witness): the amended theorem at a rest-only lick at 120 BPM. -/
theorem play_lick_total_requested_duration_witness :
    ∃ buf, play_lick_render (fun _ => none) [⟨"rest", 1⟩] 120 = some buf ∧
      buf.length ≤
        (([⟨"rest", 1⟩] : List NoteEvent).map (segRequestNat 120)).sum ∧
      ((∀ e ∈ ([⟨"rest", 1⟩] : List NoteEvent),
          slotFilled (fun _ => none) 120 e) →
        buf.length =
          (([⟨"rest", 1⟩] : List NoteEvent).map (segRequestNat 120)).sum) :=
  play_lick_total_requested_duration (fun _ => none) [⟨"rest", 1⟩] 120
    (by norm_num) (by intro e he; simp at he; simp [he])

/-- C3: a label absent from the loaded sample mapping renders
byte-for-byte like the same lick with that label replaced by `"rest"`:
both contribute `duration_ms` of silence and neither raises. -/
theorem play_lick_absent_label_equiv_rest (samples : SampleMap) (L : String)
    (events : List NoteEvent) (bpm : ℚ) (hb : 0 < bpm)
    (hL : samples L = none) :
    play_lick_render samples events bpm =
      play_lick_render samples (events.map (substLabel L)) bpm := by
  unfold play_lick_render
  rw [if_neg (ne_of_gt hb), if_neg (ne_of_gt hb)]
  congr 1
  rw [List.map_map]
  apply congrArg
  apply List.map_congr_left
  intro e _
  by_cases he : e.tab = L
  · have hs : samples e.tab = none := he ▸ hL
    by_cases hr : e.tab = "rest"
    · simp [Function.comp, substLabel, renderSegment, he, hr, hL]
    · simp [Function.comp, substLabel, renderSegment, he, hr, hs, hL]
  · simp [Function.comp, substLabel, he]

/-- C3 (witness): the theorem at a lick naming the unloaded tab `"-2"`. -/
theorem play_lick_absent_label_equiv_rest_witness :
    play_lick_render (fun _ => none) [⟨"-2", 1⟩] 120 =
      play_lick_render (fun _ => none)
        (([⟨"-2", 1⟩] : List NoteEvent).map (substLabel "-2")) 120 :=
  play_lick_absent_label_equiv_rest (fun _ => none) "-2" [⟨"-2", 1⟩] 120
    (by norm_num) rfl

/-- C6: an event whose label is loaded renders as the clip truncated to
its `duration_ms` — exactly `duration_ms` milliseconds when the clip is
long enough, and the whole (shorter) clip with no padding and no error
otherwise. -/
theorem renderSegment_truncation_only (samples : SampleMap) (bpm : ℚ)
    (e : NoteEvent) (clip : AudioClip) (hb : 0 < bpm) (hd : 0 ≤ e.duration)
    (hne : ¬ e.tab = "rest") (hc : samples e.tab = some clip) :
    renderSegment samples bpm e = clip.take (segRequestNat bpm e) ∧
    (segRequestNat bpm e ≤ clip.length →
      (renderSegment samples bpm e).length = segRequestNat bpm e) ∧
    (clip.length < segRequestNat bpm e →
      renderSegment samples bpm e = clip) := by
  have hnn := @noteDurationMs_nonneg bpm e.duration hb hd
  have hseg : renderSegment samples bpm e = clip.take (segRequestNat bpm e) := by
    unfold renderSegment segRequestNat
    simp [hne, hc, pySliceTo_of_nonneg hnn]
  refine ⟨hseg, ?_, ?_⟩
  · intro hle
    rw [hseg, List.length_take]
    omega
  · intro hlt
    rw [hseg]
    exact List.take_of_length_le (le_of_lt hlt)

/-- C6 (witness): the theorem at a 3 ms clip in a 500 ms slot. -/
theorem renderSegment_truncation_only_witness :
    renderSegment (fun l => if l = "-2" then some [7, 8, 9] else none) 120
        ⟨"-2", 1⟩ =
      ([7, 8, 9] : AudioClip).take (segRequestNat 120 ⟨"-2", 1⟩) ∧
    (segRequestNat 120 ⟨"-2", 1⟩ ≤ ([7, 8, 9] : AudioClip).length →
      (renderSegment (fun l => if l = "-2" then some [7, 8, 9] else none) 120
          ⟨"-2", 1⟩).length = segRequestNat 120 ⟨"-2", 1⟩) ∧
    (([7, 8, 9] : AudioClip).length < segRequestNat 120 ⟨"-2", 1⟩ →
      renderSegment (fun l => if l = "-2" then some [7, 8, 9] else none) 120
          ⟨"-2", 1⟩ = [7, 8, 9]) :=
  renderSegment_truncation_only (fun l => if l = "-2" then some [7, 8, 9] else none)
    120 ⟨"-2", 1⟩ [7, 8, 9] (by norm_num) (by norm_num) (by decide) (by simp)

lemma fmod_natCast_eq_zero_iff (i n : ℕ) (hn : 0 < n) :
    Int.fmod (i : ℤ) (n : ℤ) = 0 ↔ i % n = 0 := by
  rw [Int.fmod_eq_emod _ (by positivity)]
  constructor
  · intro h
    have h2 : ((i % n : ℕ) : ℤ) = 0 := by push_cast at h ⊢; omega
    exact_mod_cast h2
  · intro h
    have h2 : ((i % n : ℕ) : ℤ) = 0 := by exact_mod_cast h
    push_cast at h2 ⊢
    omega

lemma response_part_eq_spec (c1 c2 : AudioClip) (n : ℕ) (bpm : ℚ) (m : ℤ)
    (hm : 0 < m) (hb : 0 < bpm) :
    response_part c1 c2 n bpm m =
      some ((List.range n).map (fun i =>
        (if i % m.toNat = 0 then c1 else c2).take
          (pyInt (quarterNoteMs bpm)).toNat)).flatten := by
  have hq : 0 ≤ pyInt (quarterNoteMs bpm) :=
    pyInt_nonneg (le_of_lt (quarterNoteMs_pos hb))
  unfold response_part
  rw [if_neg (by omega : ¬((m = 0) ∧ 1 ≤ n))]
  apply congrArg
  apply congrArg
  apply List.map_congr_left
  intro i _
  unfold clickForBeat
  rw [pySliceTo_of_nonneg hq, pySliceTo_of_nonneg hq]
  have hmn : ((m.toNat : ℤ)) = m := Int.toNat_of_nonneg (le_of_lt hm)
  have hiff : Int.fmod (i : ℤ) m = 0 ↔ i % m.toNat = 0 := by
    rw [← hmn]
    exact fmod_natCast_eq_zero_iff i m.toNat (by omega)
  by_cases hc : i % m.toNat = 0
  · rw [if_pos (hiff.mpr hc), if_pos hc]
  · rw [if_neg (fun h => hc (hiff.mp h)), if_neg hc]

/-- C2: in the response click track with `m` beats per measure, beat
`i` uses the accent click `metronome_click_1` exactly when
`i mod m = 0` and the normal click `metronome_click_2` otherwise, each
beat truncated to one quarter-note duration — `int(60000/bpm)`
milliseconds; in particular for 8 beats at 120 BPM in 4/4 the accent
click is placed at beat indices 0 and 4 and the normal click at indices
1, 2, 3, 5, 6, 7 (each 500 ms). -/
theorem response_part_accent_placement :
    (∀ (c1 c2 : AudioClip) (n : ℕ) (bpm : ℚ) (m : ℤ), 0 < m → 0 < bpm →
      response_part c1 c2 n bpm m =
        some ((List.range n).map (fun i =>
          (if i % m.toNat = 0 then c1 else c2).take
            (pyInt (quarterNoteMs bpm)).toNat)).flatten) ∧
    (∀ c1 c2 : AudioClip, response_part c1 c2 8 120 4 =
      some ([c1.take 500, c2.take 500, c2.take 500, c2.take 500,
        c1.take 500, c2.take 500, c2.take 500, c2.take 500]).flatten) := by
  constructor
  · intro c1 c2 n bpm m hm hb
    exact response_part_eq_spec c1 c2 n bpm m hm hb
  · intro c1 c2
    rw [response_part_eq_spec c1 c2 8 120 4 (by norm_num) (by norm_num)]
    have hq : (pyInt (quarterNoteMs 120)).toNat = 500 := by
      simp only [pyInt, quarterNoteMs]
      norm_num
      decide
    rw [hq]
    simp [List.range_succ]

/-- C2 (witness): the general statement at 5 beats of 3/4 at 100 BPM. -/
theorem response_part_accent_placement_witness :
    response_part [3] [4] 5 100 3 =
      some ((List.range 5).map (fun i =>
        (if i % (3 : ℤ).toNat = 0 then [3] else [4]).take
          (pyInt (quarterNoteMs 100)).toNat)).flatten :=
  response_part_accent_placement.1 [3] [4] 5 100 3 (by norm_num) (by norm_num)

/-- C5: a time-signature string that does not parse as two
'/'-separated integers falls back to 4 beats per measure with the
warning printed, and the response click track built from it is
identical to the one built from `"4/4"`; `"bad-string"` is such a
string, and `"4/4"` itself parses without warning. -/
theorem response_malformed_signature_fallback :
    (∀ s : String, parse_time_signature s = none →
      beats_per_measure s = (4, true) ∧
      ∀ (c1 c2 : AudioClip) (lick : List NoteEvent) (bpm : ℚ),
        response_part_of c1 c2 lick bpm s =
          response_part_of c1 c2 lick bpm "4/4") ∧
    parse_time_signature "bad-string" = none ∧
    beats_per_measure "4/4" = (4, false) := by
  refine ⟨fun s hs => ⟨?_, ?_⟩, by decide, by decide⟩
  · unfold beats_per_measure
    rw [hs]
  · intro c1 c2 lick bpm
    unfold response_part_of
    have h1 : (beats_per_measure s).1 = 4 := by
      unfold beats_per_measure
      rw [hs]
    have h2 : (beats_per_measure "4/4").1 = 4 := by decide
    rw [h1, h2]

/-- C5 (witness): the theorem at `"bad-string"` with a one-beat lick. -/
theorem response_malformed_signature_fallback_witness :
    beats_per_measure "bad-string" = (4, true) ∧
    response_part_of [1] [2] [⟨"rest", 1⟩] 120 "bad-string" =
      response_part_of [1] [2] [⟨"rest", 1⟩] 120 "4/4" :=
  ⟨(response_malformed_signature_fallback.1 "bad-string" (by decide)).1,
   (response_malformed_signature_fallback.1 "bad-string" (by decide)).2
     [1] [2] [⟨"rest", 1⟩] 120⟩

/-- C10: `"0/4"` parses as two integers, so it bypasses the
malformed-string fallback and reaches the click-track loop with
`beats_per_measure = 0` and no warning; for any lick whose durations
sum to at least one beat the loop body then evaluates `i % 0` and the
unhandled `ZeroDivisionError` aborts the build instead of recovering. -/
theorem response_zero_beats_division_error :
    beats_per_measure "0/4" = (0, false) ∧
    ∀ (c1 c2 : AudioClip) (lick : List NoteEvent) (bpm : ℚ),
      1 ≤ (lick.map (·.duration)).sum →
      response_part_of c1 c2 lick bpm "0/4" = none := by
  constructor
  · decide
  · intro c1 c2 lick bpm hsum
    unfold response_part_of response_part
    have hm : (beats_per_measure "0/4").1 = 0 := by decide
    have hn : 1 ≤ (num_beats_total lick).toNat := by
      unfold num_beats_total
      have h1 : (1 : ℤ) ≤ pyInt ((lick.map (·.duration)).sum) := by
        rw [pyInt_eq_floor (le_trans (by norm_num) hsum)]
        exact Int.le_floor.mpr (by exact_mod_cast hsum)
      omega
    rw [hm]
    rw [if_pos ⟨rfl, hn⟩]

/-- C10 (witness): the theorem at a two-beat rest lick at 120 BPM. -/
theorem response_zero_beats_division_error_witness :
    response_part_of [] [] [⟨"rest", 2⟩] 120 "0/4" = none :=
  response_zero_beats_division_error.2 [] [] [⟨"rest", 2⟩] 120 (by norm_num)

lemma call_and_response_loop_length_le (stop : ℕ → Bool)
    (call resp : AudioClip) :
    ∀ (fuel i t : ℕ), stop (2 * i + t) = true →
      (call_and_response_loop stop call resp i fuel).length ≤ t := by
  intro fuel
  induction fuel with
  | zero =>
      intro i t _
      simp [call_and_response_loop]
  | succ n ih =>
      intro i t ht
      by_cases h0 : stop (2 * i) = true
      · simp [call_and_response_loop, h0]
      · have h0' : stop (2 * i) = false := by
          cases hv : stop (2 * i) with
          | false => rfl
          | true => exact absurd hv h0
        have hne0 : t ≠ 0 := by
          intro hz
          rw [hz, Nat.add_zero] at ht
          exact h0 ht
        by_cases h1 : stop (2 * i + 1) = true
        · have : (call_and_response_loop stop call resp i (n + 1)).length = 1 := by
            simp [call_and_response_loop, h0', h1]
          omega
        · have h1' : stop (2 * i + 1) = false := by
            cases hv : stop (2 * i + 1) with
            | false => rfl
            | true => exact absurd hv h1
          have hne1 : t ≠ 1 := by
            intro hz
            rw [hz] at ht
            exact h1 ht
          have ht' : stop (2 * (i + 1) + (t - 2)) = true := by
            have harith : 2 * (i + 1) + (t - 2) = 2 * i + t := by omega
            rw [harith]
            exact ht
          have hrec := ih (i + 1) (t - 2) ht'
          have hlen : (call_and_response_loop stop call resp i (n + 1)).length =
              2 + (call_and_response_loop stop call resp (i + 1) n).length := by
            simp [call_and_response_loop, h0', h1']
            omega
          omega

/-- C7: the call-and-response worker reads the stop flag only between
segments — at the `while` condition and at the `if` after the call
segment — never mid-segment; consequently, whatever the fuel bound, if
the k-th flag read observes `true` then at most `k` segments are ever
handed to `play`: the at-most-one in-flight segment finishes and the
loop exits without issuing further playback calls. -/
theorem call_and_response_cooperative_stop (stop : ℕ → Bool)
    (call resp : AudioClip) (fuel k : ℕ) (hk : stop k = true) :
    (call_and_response_loop stop call resp 0 fuel).length ≤ k := by
  have h := call_and_response_loop_length_le stop call resp fuel 0 k
    (by simpa using hk)
  exact h

/-- C7 (witness): a flag that the worker first observes set at its
third read stops the loop after at most three segments. -/
theorem call_and_response_cooperative_stop_witness :
    (call_and_response_loop (fun n => decide (3 ≤ n)) [1] [2] 0 50).length ≤ 3 :=
  call_and_response_cooperative_stop (fun n => decide (3 ≤ n)) [1] [2] 50 3
    (by decide)

/-- C8 (counterexample): the app exposes no separate `start()`; its
single toggle, invoked from the Running state (one live worker), stops
the session — zero workers remain — rather than leaving exactly one
worker running with a reported no-op, as the claim states. -/
theorem toggle_while_running_not_second_start :
    (toggle_call_and_response ⟨true, 1, false, true⟩).workers = 0 ∧
    ¬ (toggle_call_and_response ⟨true, 1, false, true⟩).workers = 1 := by
  constructor
  · rfl
  · intro h
    simp [toggle_call_and_response] at h

/-- C8 (amended): the UI's single toggle preserves the invariant
"exactly one worker iff a session is active", so a duplicate start can
never leave a second worker: toggling while Running performs the stop —
sets the stop flag, joins the worker (zero workers remain), marks the
session inactive, and reports no error — and toggling while Idle with
no lick loaded is a harmless no-op. -/
theorem toggle_call_and_response_worker_invariant (s : AppState)
    (h : s.workers = if s.active then 1 else 0) :
    ((toggle_call_and_response s).workers =
      if (toggle_call_and_response s).active then 1 else 0) ∧
    (s.active = true →
      (toggle_call_and_response s).active = false ∧
      (toggle_call_and_response s).workers = 0 ∧
      (toggle_call_and_response s).stopFlag = true) ∧
    (s.active = false → s.hasLick = false →
      toggle_call_and_response s = s) := by
  rcases s with ⟨a, w, f, l⟩
  cases a <;> cases l <;> simp_all [toggle_call_and_response]

/-- C8 (witness): the amended theorem at the Running state with one
live worker. -/
theorem toggle_call_and_response_worker_invariant_witness :
    ((toggle_call_and_response ⟨true, 1, true, true⟩).workers =
      if (toggle_call_and_response ⟨true, 1, true, true⟩).active then 1
      else 0) ∧
    ((⟨true, 1, true, true⟩ : AppState).active = true →
      (toggle_call_and_response ⟨true, 1, true, true⟩).active = false ∧
      (toggle_call_and_response ⟨true, 1, true, true⟩).workers = 0 ∧
      (toggle_call_and_response ⟨true, 1, true, true⟩).stopFlag = true) ∧
    ((⟨true, 1, true, true⟩ : AppState).active = false →
      (⟨true, 1, true, true⟩ : AppState).hasLick = false →
      toggle_call_and_response ⟨true, 1, true, true⟩ =
        ⟨true, 1, true, true⟩) :=
  toggle_call_and_response_worker_invariant ⟨true, 1, true, true⟩ rfl

/-- C9: loading a key whose sample directory does not exist returns
`False` and leaves the sample mapping empty — afterwards every label
lookup is absent, never a partially mixed mapping. -/
theorem load_harp_samples_missing_key (fs : FileSystem)
    (samples_base_path key : String)
    (h : fs (samples_base_path ++ "/" ++ (key.toUpper ++ "_harp")) = none) :
    (load_harp_samples fs samples_base_path key).2 = false ∧
    ∀ L, (load_harp_samples fs samples_base_path key).1 L = none := by
  simp [load_harp_samples, h]

/-- C9 (witness): the theorem for key `"Z"` on a filesystem with no
sample directories at all. -/
theorem load_harp_samples_missing_key_witness :
    (load_harp_samples (fun _ => none) "audio_samples" "Z").2 = false ∧
    ∀ L, (load_harp_samples (fun _ => none) "audio_samples" "Z").1 L = none :=
  load_harp_samples_missing_key (fun _ => none) "audio_samples" "Z" rfl
